import Mathlib

/-!
Verification of the lumi-filter library (declarative filter-and-order query
engine) against its natural-language specification.

The development shallowly embeds the iterable-backend part of the code base:

* `src/lumi_filter/field.py`   — filter field kinds, their supported lookup
  expressions and their `parse_value` methods;
* `src/lumi_filter/backend.py` — `IterableBackend`: dot-path resolution,
  predicate matching, filtering, multi-key ordering;
* `src/lumi_filter/model.py`   — `ModelMeta` (query-key table construction,
  name and source-kind validation) and `Model.cls_filter` / `Model.cls_order`.

Python runtime values flowing through the iterable backend are modelled by the
inductive type `PyVal`.  Numbers (int, Decimal, float, and bool in numeric
position) are collapsed into one exact numeric constructor `pyNum : Rat`,
mirroring Python's cross-type numeric comparison semantics.  Dates and
datetimes are carried as an order-preserving numeric encoding.  Fallible
Python operations (dict indexing, order comparisons between incompatible
types, missing operator-map keys) return `Except PyErr`.
-/

namespace LumiFilter

/-- Python runtime values handled by the iterable backend. -/
inductive PyVal where
  | pyNone : PyVal
  | pyBool (b : Bool) : PyVal
  | pyNum (q : Rat) : PyVal
  | pyStr (s : String) : PyVal
  | pyDate (code : Nat) : PyVal
  | pyDateTime (code : Nat) : PyVal
  | pyList (xs : List PyVal) : PyVal
  | pyDict (fields : List (String × PyVal)) : PyVal

mutual

/-- Structural decidable equality for `PyVal` (the derive handler does not
support this nested inductive). -/
def pyDecEq : (a b : PyVal) → Decidable (a = b)
  | PyVal.pyNone, PyVal.pyNone => isTrue rfl
  | PyVal.pyBool x, PyVal.pyBool y =>
    match decEq x y with
    | isTrue h => isTrue (h ▸ rfl)
    | isFalse h => isFalse (fun hh => h (by injection hh))
  | PyVal.pyNum x, PyVal.pyNum y =>
    match decEq x y with
    | isTrue h => isTrue (h ▸ rfl)
    | isFalse h => isFalse (fun hh => h (by injection hh))
  | PyVal.pyStr x, PyVal.pyStr y =>
    match decEq x y with
    | isTrue h => isTrue (h ▸ rfl)
    | isFalse h => isFalse (fun hh => h (by injection hh))
  | PyVal.pyDate x, PyVal.pyDate y =>
    match decEq x y with
    | isTrue h => isTrue (h ▸ rfl)
    | isFalse h => isFalse (fun hh => h (by injection hh))
  | PyVal.pyDateTime x, PyVal.pyDateTime y =>
    match decEq x y with
    | isTrue h => isTrue (h ▸ rfl)
    | isFalse h => isFalse (fun hh => h (by injection hh))
  | PyVal.pyList xs, PyVal.pyList ys =>
    match pyDecEqList xs ys with
    | isTrue h => isTrue (h ▸ rfl)
    | isFalse h => isFalse (fun hh => h (by injection hh))
  | PyVal.pyDict xs, PyVal.pyDict ys =>
    match pyDecEqPairs xs ys with
    | isTrue h => isTrue (h ▸ rfl)
    | isFalse h => isFalse (fun hh => h (by injection hh))
  | PyVal.pyNone, PyVal.pyBool _ => isFalse (fun hh => nomatch hh)
  | PyVal.pyNone, PyVal.pyNum _ => isFalse (fun hh => nomatch hh)
  | PyVal.pyNone, PyVal.pyStr _ => isFalse (fun hh => nomatch hh)
  | PyVal.pyNone, PyVal.pyDate _ => isFalse (fun hh => nomatch hh)
  | PyVal.pyNone, PyVal.pyDateTime _ => isFalse (fun hh => nomatch hh)
  | PyVal.pyNone, PyVal.pyList _ => isFalse (fun hh => nomatch hh)
  | PyVal.pyNone, PyVal.pyDict _ => isFalse (fun hh => nomatch hh)
  | PyVal.pyBool _, PyVal.pyNone => isFalse (fun hh => nomatch hh)
  | PyVal.pyBool _, PyVal.pyNum _ => isFalse (fun hh => nomatch hh)
  | PyVal.pyBool _, PyVal.pyStr _ => isFalse (fun hh => nomatch hh)
  | PyVal.pyBool _, PyVal.pyDate _ => isFalse (fun hh => nomatch hh)
  | PyVal.pyBool _, PyVal.pyDateTime _ => isFalse (fun hh => nomatch hh)
  | PyVal.pyBool _, PyVal.pyList _ => isFalse (fun hh => nomatch hh)
  | PyVal.pyBool _, PyVal.pyDict _ => isFalse (fun hh => nomatch hh)
  | PyVal.pyNum _, PyVal.pyNone => isFalse (fun hh => nomatch hh)
  | PyVal.pyNum _, PyVal.pyBool _ => isFalse (fun hh => nomatch hh)
  | PyVal.pyNum _, PyVal.pyStr _ => isFalse (fun hh => nomatch hh)
  | PyVal.pyNum _, PyVal.pyDate _ => isFalse (fun hh => nomatch hh)
  | PyVal.pyNum _, PyVal.pyDateTime _ => isFalse (fun hh => nomatch hh)
  | PyVal.pyNum _, PyVal.pyList _ => isFalse (fun hh => nomatch hh)
  | PyVal.pyNum _, PyVal.pyDict _ => isFalse (fun hh => nomatch hh)
  | PyVal.pyStr _, PyVal.pyNone => isFalse (fun hh => nomatch hh)
  | PyVal.pyStr _, PyVal.pyBool _ => isFalse (fun hh => nomatch hh)
  | PyVal.pyStr _, PyVal.pyNum _ => isFalse (fun hh => nomatch hh)
  | PyVal.pyStr _, PyVal.pyDate _ => isFalse (fun hh => nomatch hh)
  | PyVal.pyStr _, PyVal.pyDateTime _ => isFalse (fun hh => nomatch hh)
  | PyVal.pyStr _, PyVal.pyList _ => isFalse (fun hh => nomatch hh)
  | PyVal.pyStr _, PyVal.pyDict _ => isFalse (fun hh => nomatch hh)
  | PyVal.pyDate _, PyVal.pyNone => isFalse (fun hh => nomatch hh)
  | PyVal.pyDate _, PyVal.pyBool _ => isFalse (fun hh => nomatch hh)
  | PyVal.pyDate _, PyVal.pyNum _ => isFalse (fun hh => nomatch hh)
  | PyVal.pyDate _, PyVal.pyStr _ => isFalse (fun hh => nomatch hh)
  | PyVal.pyDate _, PyVal.pyDateTime _ => isFalse (fun hh => nomatch hh)
  | PyVal.pyDate _, PyVal.pyList _ => isFalse (fun hh => nomatch hh)
  | PyVal.pyDate _, PyVal.pyDict _ => isFalse (fun hh => nomatch hh)
  | PyVal.pyDateTime _, PyVal.pyNone => isFalse (fun hh => nomatch hh)
  | PyVal.pyDateTime _, PyVal.pyBool _ => isFalse (fun hh => nomatch hh)
  | PyVal.pyDateTime _, PyVal.pyNum _ => isFalse (fun hh => nomatch hh)
  | PyVal.pyDateTime _, PyVal.pyStr _ => isFalse (fun hh => nomatch hh)
  | PyVal.pyDateTime _, PyVal.pyDate _ => isFalse (fun hh => nomatch hh)
  | PyVal.pyDateTime _, PyVal.pyList _ => isFalse (fun hh => nomatch hh)
  | PyVal.pyDateTime _, PyVal.pyDict _ => isFalse (fun hh => nomatch hh)
  | PyVal.pyList _, PyVal.pyNone => isFalse (fun hh => nomatch hh)
  | PyVal.pyList _, PyVal.pyBool _ => isFalse (fun hh => nomatch hh)
  | PyVal.pyList _, PyVal.pyNum _ => isFalse (fun hh => nomatch hh)
  | PyVal.pyList _, PyVal.pyStr _ => isFalse (fun hh => nomatch hh)
  | PyVal.pyList _, PyVal.pyDate _ => isFalse (fun hh => nomatch hh)
  | PyVal.pyList _, PyVal.pyDateTime _ => isFalse (fun hh => nomatch hh)
  | PyVal.pyList _, PyVal.pyDict _ => isFalse (fun hh => nomatch hh)
  | PyVal.pyDict _, PyVal.pyNone => isFalse (fun hh => nomatch hh)
  | PyVal.pyDict _, PyVal.pyBool _ => isFalse (fun hh => nomatch hh)
  | PyVal.pyDict _, PyVal.pyNum _ => isFalse (fun hh => nomatch hh)
  | PyVal.pyDict _, PyVal.pyStr _ => isFalse (fun hh => nomatch hh)
  | PyVal.pyDict _, PyVal.pyDate _ => isFalse (fun hh => nomatch hh)
  | PyVal.pyDict _, PyVal.pyDateTime _ => isFalse (fun hh => nomatch hh)
  | PyVal.pyDict _, PyVal.pyList _ => isFalse (fun hh => nomatch hh)

/-- Decidable equality for lists of `PyVal`. -/
def pyDecEqList : (a b : List PyVal) → Decidable (a = b)
  | [], [] => isTrue rfl
  | [], _ :: _ => isFalse (fun hh => nomatch hh)
  | _ :: _, [] => isFalse (fun hh => nomatch hh)
  | x :: xs, y :: ys =>
    match pyDecEq x y, pyDecEqList xs ys with
    | isTrue h1, isTrue h2 => isTrue (h1 ▸ h2 ▸ rfl)
    | isFalse h1, _ => isFalse (fun hh => h1 (by injection hh))
    | _, isFalse h2 => isFalse (fun hh => h2 (by injection hh))

/-- Decidable equality for string-keyed pair lists of `PyVal`. -/
def pyDecEqPairs : (a b : List (String × PyVal)) → Decidable (a = b)
  | [], [] => isTrue rfl
  | [], _ :: _ => isFalse (fun hh => nomatch hh)
  | _ :: _, [] => isFalse (fun hh => nomatch hh)
  | (k, v) :: xs, (k2, v2) :: ys =>
    match decEq k k2, pyDecEq v v2, pyDecEqPairs xs ys with
    | isTrue h0, isTrue h1, isTrue h2 => isTrue (h0 ▸ h1 ▸ h2 ▸ rfl)
    | isFalse h0, _, _ =>
      isFalse (fun hh => h0 (congrArg (fun l => (l.headD ("", PyVal.pyNone)).1) hh))
    | _, isFalse h1, _ =>
      isFalse (fun hh => h1 (congrArg (fun l => (l.headD ("", PyVal.pyNone)).2) hh))
    | _, _, isFalse h2 => isFalse (fun hh => h2 (by injection hh))

end

instance : DecidableEq PyVal := pyDecEq

/-- Exceptions that the backend code catches: `KeyError` and `TypeError`. -/
inductive PyErr where
  | keyError : PyErr
  | typeError : PyErr
deriving DecidableEq

/-- First-match association-list lookup, the model of Python dict indexing
on the string-keyed record dictionaries. -/
def lookupStr : List (String × PyVal) → String → Option PyVal
  | [], _ => none
  | (k, v) :: rest, key => if k = key then some v else lookupStr rest key

/-- Numeric reading of a value: Python treats `bool` as an `int` in numeric
comparisons (`True == 1`), so both `pyBool` and `pyNum` are numeric. -/
def ratOfNum : PyVal → Option Rat
  | PyVal.pyBool b => some (if b then 1 else 0)
  | PyVal.pyNum q => some q
  | _ => none

/-- Comparability class of a value for Python order comparisons (`<`, `<=`,
`>`, `>=`): numbers compare with numbers, strings with strings, dates with
dates, datetimes with datetimes; everything else raises `TypeError`. -/
def pyClass : PyVal → Nat
  | PyVal.pyNone => 0
  | PyVal.pyBool _ => 1
  | PyVal.pyNum _ => 1
  | PyVal.pyStr _ => 2
  | PyVal.pyDate _ => 3
  | PyVal.pyDateTime _ => 4
  | PyVal.pyList _ => 5
  | PyVal.pyDict _ => 6

/-- Whether a Python order comparison between the two values succeeds.
Lists and dicts are modelled as never order-comparable (Python compares
lists elementwise; no record in scope of the verified claims carries
list-valued sort keys, and dict-dict comparison does raise `TypeError`). -/
def comparableB (a b : PyVal) : Bool :=
  pyClass a == pyClass b && (pyClass a == 1 || pyClass a == 2 || pyClass a == 3 || pyClass a == 4)

mutual

/-- Python `==` (`operator.eq`) on the modelled values: numeric values compare
by value across `bool`/`int`/`Decimal`; strings, dates and datetimes compare
within their own kind; lists compare elementwise; dicts compare as unordered
key-value maps (equal size plus pointwise agreement); any remaining mixed
pair is unequal.  Python `==` never raises on these values. -/
def pyEq : PyVal → PyVal → Bool
  | a, b =>
    match ratOfNum a, ratOfNum b with
    | some x, some y => x == y
    | _, _ =>
      match a, b with
      | PyVal.pyNone, PyVal.pyNone => true
      | PyVal.pyStr s, PyVal.pyStr t => s == t
      | PyVal.pyDate m, PyVal.pyDate n => m == n
      | PyVal.pyDateTime m, PyVal.pyDateTime n => m == n
      | PyVal.pyList xs, PyVal.pyList ys => pyEqList xs ys
      | PyVal.pyDict xs, PyVal.pyDict ys => xs.length == ys.length && pyEqDict xs ys
      | _, _ => false

/-- Elementwise list equality used by `pyEq`. -/
def pyEqList : List PyVal → List PyVal → Bool
  | [], [] => true
  | x :: xs, y :: ys => pyEq x y && pyEqList xs ys
  | _, _ => false

/-- One-sided dict inclusion used by `pyEq`; combined with the size check it
models Python's order-insensitive dict equality (dict keys are unique). -/
def pyEqDict : List (String × PyVal) → List (String × PyVal) → Bool
  | [], _ => true
  | (k, v) :: rest, ys =>
    (match lookupStr ys k with
     | some w => pyEq v w
     | none => false) && pyEqDict rest ys

end

/-- Strict order comparison within one comparability class.  Only meaningful
when `comparableB` holds; total on all values for convenience. -/
def pyLtB : PyVal → PyVal → Bool
  | a, b =>
    match ratOfNum a, ratOfNum b with
    | some x, some y => x < y
    | _, _ =>
      match a, b with
      | PyVal.pyStr s, PyVal.pyStr t => s < t
      | PyVal.pyDate m, PyVal.pyDate n => m < n
      | PyVal.pyDateTime m, PyVal.pyDateTime n => m < n
      | x, y => pyClass x < pyClass y

/-- Non-strict order comparison; total on all `PyVal` (falling back to the
comparability-class index on pairs Python would refuse to compare) so that
it can serve as the total, transitive relation underlying the embedding of
Python's stable `sorted`.  On pairs accepted by `comparableB` it agrees
with Python's `<=`. -/
def pyLeB : PyVal → PyVal → Bool
  | a, b =>
    match ratOfNum a, ratOfNum b with
    | some x, some y => x ≤ y
    | _, _ =>
      match a, b with
      | PyVal.pyStr s, PyVal.pyStr t => s ≤ t
      | PyVal.pyDate m, PyVal.pyDate n => m ≤ n
      | PyVal.pyDateTime m, PyVal.pyDateTime n => m ≤ n
      | x, y => pyClass x ≤ pyClass y

/-- Structural split of a character list on a separator, the model of
Python's `str.split(sep)` for a one-character separator: splitting the
empty string yields one empty part, exactly as in Python. -/
def splitOnChar (sep : Char) : List Char → List (List Char)
  | [] => [[]]
  | c :: rest =>
    match splitOnChar sep rest with
    | [] => [[]]
    | cur :: parts => if c = sep then [] :: cur :: parts else (c :: cur) :: parts

/-- String-level wrapper of `splitOnChar`. -/
def pySplit (s : String) (sep : Char) : List String :=
  (splitOnChar sep s.data).map (fun cs => String.mk cs)

/-- ASCII lowercasing, the model of Python's `str.lower()`. -/
def lowerStr (s : String) : String :=
  String.mk (s.data.map Char.toLower)

/-- Bool-valued contiguous-sublist test: `hasInfixB needle hay` is the model
of Python's `needle in hay` on strings (character lists). -/
def hasInfixB : List Char → List Char → Bool
  | needle, [] => needle.isEmpty
  | needle, c :: rest => needle.isPrefixOf (c :: rest) || hasInfixB needle rest

/-- Python `str(value)`.  Strings are the identity; booleans and None render
as in Python.  Numeric, date and container renderings are simplified
placeholders (no verified claim evaluates `str()` on those values; they
only feed the substring operators). -/
def strOf : PyVal → String
  | PyVal.pyStr s => s
  | PyVal.pyBool b => if b then "True" else "False"
  | PyVal.pyNone => "None"
  | PyVal.pyNum q => toString q.num ++ (if q.den = 1 then "" else "/" ++ toString q.den)
  | PyVal.pyDate n => "date-" ++ toString n
  | PyVal.pyDateTime n => "datetime-" ++ toString n
  | PyVal.pyList _ => "[...]"
  | PyVal.pyDict _ => "{...}"

/-- `operator.py: generic_like_operator` — case-sensitive containment,
`str(right) in str(left)`. -/
def generic_like_operator (left right : PyVal) : Bool :=
  hasInfixB (strOf right).data (strOf left).data

/-- `operator.py: generic_ilike_operator` — case-insensitive containment. -/
def generic_ilike_operator (left right : PyVal) : Bool :=
  hasInfixB (lowerStr (strOf right)).data (lowerStr (strOf left)).data

/-- `operator.py: generic_in_operator` — membership of `left` in `right`;
a `TypeError` (non-iterable right, unhashable left) is caught inside the
operator and falls back to equality. -/
def generic_in_operator (left right : PyVal) : Bool :=
  match right with
  | PyVal.pyList ys => ys.any (fun y => pyEq left y)
  | PyVal.pyStr s =>
    match left with
    | PyVal.pyStr t => hasInfixB t.data s.data
    | _ => pyEq left right
  | PyVal.pyDict xs =>
    match left with
    | PyVal.pyStr k => (lookupStr xs k).isSome
    | PyVal.pyList _ => pyEq left right
    | PyVal.pyDict _ => pyEq left right
    | _ => false
  | _ => pyEq left right

/-- Python order comparison raising `TypeError` outside one comparability
class. -/
def orderOp (cmp : PyVal → PyVal → Bool) (a b : PyVal) : Except PyErr Bool :=
  if comparableB a b then Except.ok (cmp a b) else Except.error PyErr.typeError

/-- `IterableBackend.LOOKUP_EXPR_OPERATOR_MAP` from `backend.py`: the dict
keys are exactly "", "!", "gte", "lte", "gt", "lt", "contains",
"icontains", "in"; looking up any other lookup expression (such as "nin")
raises `KeyError`, modelled by `none`.  Each operator receives
`(item_value, filter_value)` in that order. -/
def LOOKUP_EXPR_OPERATOR_MAP : String → Option (PyVal → PyVal → Except PyErr Bool)
  | "" => some (fun a b => Except.ok (pyEq a b))
  | "!" => some (fun a b => Except.ok (!pyEq a b))
  | "gte" => some (orderOp (fun a b => pyLeB b a))
  | "lte" => some (orderOp (fun a b => pyLeB a b))
  | "gt" => some (orderOp (fun a b => pyLtB b a))
  | "lt" => some (orderOp (fun a b => pyLtB a b))
  | "contains" => some (fun a b => Except.ok (generic_like_operator a b))
  | "icontains" => some (fun a b => Except.ok (generic_ilike_operator a b))
  | "in" => some (fun a b => Except.ok (generic_in_operator a b))
  | _ => none

/-- One Python indexing step `item[k]`: `KeyError` on a missing dict key,
`TypeError` on any non-dict intermediate. -/
def pyIndex : PyVal → String → Except PyErr PyVal
  | PyVal.pyDict xs, k =>
    match lookupStr xs k with
    | some v => Except.ok v
    | none => Except.error PyErr.keyError
  | _, _ => Except.error PyErr.typeError

/-- `IterableBackend._get_nested_value`: split the key on "." and index
segment by segment. -/
def get_nested_value (item : PyVal) (key : String) : Except PyErr PyVal :=
  (pySplit key '.').foldlM pyIndex item

/-- The body of the `try` block in `IterableBackend._match_item`: resolve the
dot path, fetch the operator from the map (`KeyError` when absent), apply
it (possibly a `TypeError`). -/
def evalPredicate (item : PyVal) (key : String) (value : PyVal) (lookup_expr : String) :
    Except PyErr Bool :=
  match get_nested_value item key with
  | Except.error e => Except.error e
  | Except.ok v =>
    match LOOKUP_EXPR_OPERATOR_MAP lookup_expr with
    | none => Except.error PyErr.keyError
    | some op => op v value

/-- `IterableBackend._match_item`: any caught `KeyError`/`TypeError` makes the
predicate pass (permissive filtering). -/
def match_item (item : PyVal) (key : String) (value : PyVal) (lookup_expr : String) : Bool :=
  match evalPredicate item key value lookup_expr with
  | Except.ok b => b
  | Except.error _ => true

/-- The container kinds distinguished by `IterableBackend.filter`: lists,
tuples and sets are rebuilt as their own kind; any other iterable input
yields the lazy `filter` object (represented by the elements it would
yield). -/
inductive PyIterable where
  | pyList (xs : List PyVal)
  | pyTuple (xs : List PyVal)
  | pySet (xs : List PyVal)
  | pyGen (xs : List PyVal)
  | pyFilterObj (xs : List PyVal)
deriving DecidableEq

/-- Container kind discriminant. -/
inductive PyKind where
  | list | tuple | set | gen | filterObj
deriving DecidableEq

/-- Kind of a container. -/
def kindOf : PyIterable → PyKind
  | PyIterable.pyList _ => PyKind.list
  | PyIterable.pyTuple _ => PyKind.tuple
  | PyIterable.pySet _ => PyKind.set
  | PyIterable.pyGen _ => PyKind.gen
  | PyIterable.pyFilterObj _ => PyKind.filterObj

/-- Elements of a container in iteration order. -/
def elemsOf : PyIterable → List PyVal
  | PyIterable.pyList xs => xs
  | PyIterable.pyTuple xs => xs
  | PyIterable.pySet xs => xs
  | PyIterable.pyGen xs => xs
  | PyIterable.pyFilterObj xs => xs

/-- Rebuild a container from a kind and elements. -/
def mkIterable : PyKind → List PyVal → PyIterable
  | PyKind.list, xs => PyIterable.pyList xs
  | PyKind.tuple, xs => PyIterable.pyTuple xs
  | PyKind.set, xs => PyIterable.pySet xs
  | PyKind.gen, xs => PyIterable.pyGen xs
  | PyKind.filterObj, xs => PyIterable.pyFilterObj xs

/-- Kind of the container returned by one `IterableBackend.filter` pass. -/
def filterKind : PyKind → PyKind
  | PyKind.list => PyKind.list
  | PyKind.tuple => PyKind.tuple
  | PyKind.set => PyKind.set
  | PyKind.gen => PyKind.filterObj
  | PyKind.filterObj => PyKind.filterObj

namespace IterableBackend

/-- `IterableBackend.filter` from `backend.py`: one pass of the built-in
`filter` with `_match_item`, rebuilt as a list/tuple/set when the input is
one, otherwise returned as the lazy filter object. -/
def filter (data : PyIterable) (key : String) (value : PyVal) (lookup_expr : String) :
    PyIterable :=
  let ret := (elemsOf data).filter (fun item => match_item item key value lookup_expr)
  mkIterable (filterKind (kindOf data)) ret

/-- Sort key of a record: raised errors are modelled separately (see
`sortPass`); this total function is only consulted where resolution is
known to succeed. -/
def keyOf (k : String) (r : PyVal) : PyVal :=
  match get_nested_value r k with
  | Except.ok v => v
  | Except.error _ => PyVal.pyNone

/-- Total, transitive comparison relation on records induced by a sort key;
on key values within one comparability class it is Python's `<=`. -/
def keyLe (k : String) (x y : PyVal) : Prop :=
  pyLeB (keyOf k x) (keyOf k y) = true

instance (k : String) : DecidableRel (keyLe k) :=
  fun _ _ => inferInstanceAs (Decidable (_ = true))

/-- Flipped relation used for `reverse=True`, keeping ties in input order
exactly as Python's stable descending sort does. -/
def keyGe (k : String) (x y : PyVal) : Prop :=
  pyLeB (keyOf k y) (keyOf k x) = true

instance (k : String) : DecidableRel (keyGe k) :=
  fun _ _ => inferInstanceAs (Decidable (_ = true))

/-- Strict variant of the descending relation, used to state uniqueness of
the sorted permutation when no two records tie on the key. -/
def keyGeStrict (k : String) (x y : PyVal) : Prop :=
  keyGe k x y ∧ ¬ keyGe k y x

/-- All unordered pairs of the key list are order-comparable: exactly when
Python's `sorted` completes without `TypeError` (with two or more
elements, Timsort compares every adjacent pair, and within one
comparability class all comparisons succeed). -/
def pairsComparable : List PyVal → Bool
  | [] => true
  | x :: rest => rest.all (fun y => comparableB x y) && pairsComparable rest

/-- Sequential evaluation of the sort key over the elements, in order, as
`sorted(data, key=...)` performs before comparing: the first resolution
failure propagates. -/
def resolveKeys (k : String) : List PyVal → Except PyErr (List PyVal)
  | [] => Except.ok []
  | r :: rest =>
    match get_nested_value r k with
    | Except.error e => Except.error e
    | Except.ok v =>
      match resolveKeys k rest with
      | Except.error e => Except.error e
      | Except.ok vs => Except.ok (v :: vs)

/-- One `sorted(data, key=..., reverse=...)` call: the key function is
evaluated on every element first (a `KeyError`/`TypeError` from the dot
path propagates), then the stable sort runs, raising `TypeError` when key
values are incomparable.  Python's Timsort is modelled by the stable
`List.insertionSort` (any two stable sorts of the same total preorder
agree pointwise). -/
def sortPass (data : List PyVal) (k : String) (rev : Bool) : Except PyErr (List PyVal) :=
  match resolveKeys k data with
  | Except.error e => Except.error e
  | Except.ok ks =>
    if pairsComparable ks then
      Except.ok (if rev then data.insertionSort (keyGe k) else data.insertionSort (keyLe k))
    else Except.error PyErr.typeError

/-- The loop of `IterableBackend.order` after `ordering[::-1]` has been taken:
each pass re-sorts; the `except (KeyError, TypeError)` plus
`finally: return data` makes a failing pass return the data accumulated so
far. -/
def orderGo : List (String × Bool) → List PyVal → List PyVal
  | [], data => data
  | (k, rev) :: rest, data =>
    match sortPass data k rev with
    | Except.ok d => orderGo rest d
    | Except.error _ => data

/-- `IterableBackend.order` from `backend.py` (current snapshot): multi-key
ordering by stable single-key passes in reverse priority order. -/
def order (data : List PyVal) (ordering : List (String × Bool)) : List PyVal :=
  orderGo ordering.reverse data

end IterableBackend

/-- A positional argument of a Python call, as far as the ordering call sites
need: a plain string, a boolean flag, or a list of
`(key, is_reverse)` pairs. -/
inductive PyArg where
  | argStr (s : String)
  | argBool (b : Bool)
  | argPairs (ps : List (String × Bool))

/-- `IterableBackend.order` invoked through Python's calling convention: its
signature besides `data` is the single parameter `ordering`, so a call
supplying any other number of positional arguments raises `TypeError`
before the body runs; a single argument that is not a list of pairs fails
unpacking inside the loop, also modelled as an error. -/
def orderInvoke (data : List PyVal) (args : List PyArg) : Except PyErr (List PyVal) :=
  match args with
  | [PyArg.argPairs ordering] => Except.ok (IterableBackend.order data ordering)
  | _ => Except.error PyErr.typeError

/-- The filter-field variants of `field.py`. -/
inductive FieldKind where
  | base | intF | strF | decimalF | booleanF | dateF | dateTimeF
deriving DecidableEq

/-- `SUPPORTED_LOOKUP_EXPR` of each field class in `field.py`.  Python stores
these as frozensets; a fixed enumeration order is chosen here (set
iteration order never affects which keys exist, only their order of
insertion into the query-key dict). -/
def SUPPORTED_LOOKUP_EXPR : FieldKind → List String
  | FieldKind.base => ["", "!", "gt", "lt", "gte", "lte", "in", "nin"]
  | FieldKind.intF => ["", "!", "gt", "lt", "gte", "lte"]
  | FieldKind.strF => ["", "!", "gt", "lt", "gte", "lte", "in", "nin"]
  | FieldKind.decimalF => ["", "!", "gt", "lt", "gte", "lte"]
  | FieldKind.booleanF => [""]
  | FieldKind.dateF => ["", "!", "gt", "lt", "gte", "lte"]
  | FieldKind.dateTimeF => ["", "!", "gt", "lt", "gte", "lte"]

/-- Value of a nonempty all-digit character run, the core of Python's integer
literal parsing. -/
def parseNatDigits : List Char → Option Nat
  | [] => none
  | cs =>
    if cs.all (fun c => c.isDigit) then
      some (cs.foldl (fun acc c => acc * 10 + (c.toNat - 48)) 0)
    else none

/-- Python `int(s)` on a string: optional sign and decimal digits (whitespace
trimming and underscore separators are not modelled). -/
def intParse (s : String) : Option Int :=
  match s.data with
  | '-' :: rest => (parseNatDigits rest).map (fun n => -(n : Int))
  | '+' :: rest => (parseNatDigits rest).map (fun n => (n : Int))
  | ds => (parseNatDigits ds).map (fun n => (n : Int))

/-- Fraction digits to an exact rational in `[0, 1)`. -/
def fracOfDigits (cs : List Char) : Rat :=
  (cs.foldl (fun acc c => acc * 10 + (c.toNat - 48)) 0 : Rat) / ((10 : Rat) ^ cs.length)

/-- Python `decimal.Decimal(s)`: optional sign, digits with an optional
fractional part (exponent notation is not modelled).  Exact: no rounding. -/
def decimalParse (s : String) : Option Rat :=
  let body := fun (cs : List Char) =>
    match splitOnChar '.' cs with
    | [ds] => (parseNatDigits ds).map (fun n => (n : Rat))
    | [ds, fs] =>
      match ds, fs with
      | [], [] => none
      | [], _ => if fs.all (fun c => c.isDigit) then some (fracOfDigits fs) else none
      | _, [] => (parseNatDigits ds).map (fun n => (n : Rat))
      | _, _ =>
        match parseNatDigits ds with
        | some n => if fs.all (fun c => c.isDigit) then some ((n : Rat) + fracOfDigits fs) else none
        | none => none
    | _ => none
  match s.data with
  | '-' :: rest => (body rest).map (fun q => -q)
  | '+' :: rest => body rest
  | ds => body ds

/-- Gregorian leap-year test (as `datetime.date` validates). -/
def isLeapYear (y : Nat) : Bool :=
  y % 4 == 0 && (y % 100 != 0 || y % 400 == 0)

/-- Days in a month. -/
def daysInMonth (y m : Nat) : Nat :=
  if m == 2 then (if isLeapYear y then 29 else 28)
  else if m == 4 || m == 6 || m == 9 || m == 11 then 30
  else 31

/-- Order-preserving numeric encoding of a calendar date. -/
def dateCode (y m d : Nat) : Nat := y * 10000 + m * 100 + d

/-- `datetime.datetime.strptime(value, "%Y-%m-%d").date()`: three dash-joined
decimal fields forming a valid calendar date. -/
def dateParse (s : String) : Option Nat :=
  match pySplit s '-' with
  | [ys, ms, ds] =>
    match parseNatDigits ys.data, parseNatDigits ms.data, parseNatDigits ds.data with
    | some y, some m, some d =>
      if 1 ≤ m && m ≤ 12 && 1 ≤ d && d ≤ daysInMonth y m && y ≤ 9999 then
        some (dateCode y m d)
      else none
    | _, _, _ => none
  | _ => none

/-- `datetime.datetime.strptime(value, "%Y-%m-%dT%H:%M:%S")`. -/
def dateTimeParse (s : String) : Option Nat :=
  match pySplit s 'T' with
  | [datePart, timePart] =>
    match dateParse datePart, pySplit timePart ':' with
    | some dc, [hs, ms, ss] =>
      match parseNatDigits hs.data, parseNatDigits ms.data, parseNatDigits ss.data with
      | some h, some mi, some sec =>
        if h ≤ 23 && mi ≤ 59 && sec ≤ 59 then
          some (dc * 1000000 + h * 10000 + mi * 100 + sec)
        else none
      | _, _, _ => none
    | _, _ => none
  | _ => none

/-- `parse_value` of each field class in `field.py`; `none` models the
`(None, False)` invalid result, `some` the `(parsed, True)` result.
`FilterField` and `StrField` return the value unchanged and are never
invalid.  `DateField` passes any `datetime.date` through, and a
`datetime.datetime` is a `datetime.date` in Python, so both date-like
constructors pass. -/
def parse_value (kind : FieldKind) (v : PyVal) : Option PyVal :=
  match kind with
  | FieldKind.base => some v
  | FieldKind.strF => some v
  | FieldKind.intF =>
    match v with
    | PyVal.pyNum q => some (PyVal.pyNum ((Int.tdiv q.num (q.den : Int) : Int) : Rat))
    | PyVal.pyBool b => some (PyVal.pyNum (if b then 1 else 0))
    | PyVal.pyStr s => (intParse s).map (fun n => PyVal.pyNum (n : Rat))
    | _ => none
  | FieldKind.decimalF =>
    match v with
    | PyVal.pyNum _ => some v
    | PyVal.pyBool b => some (PyVal.pyNum (if b then 1 else 0))
    | PyVal.pyStr s => (decimalParse s).map (fun q => PyVal.pyNum q)
    | _ => none
  | FieldKind.booleanF =>
    match v with
    | PyVal.pyBool _ => some v
    | PyVal.pyStr s =>
      let lower := lowerStr s
      if lower = "true" || lower = "1" || lower = "yes" || lower = "on" then
        some (PyVal.pyBool true)
      else if lower = "false" || lower = "0" || lower = "no" || lower = "off" then
        some (PyVal.pyBool false)
      else none
    | _ => none
  | FieldKind.dateF =>
    match v with
    | PyVal.pyDate _ => some v
    | PyVal.pyDateTime _ => some v
    | PyVal.pyStr s => (dateParse s).map (fun n => PyVal.pyDate n)
    | _ => none
  | FieldKind.dateTimeF =>
    match v with
    | PyVal.pyDateTime _ => some v
    | PyVal.pyStr s => (dateTimeParse s).map (fun n => PyVal.pyDateTime n)
    | _ => none

/-- A field's `source` attribute: a dot-path string (iterable records), a
peewee column handle (structured queries), or anything else. -/
inductive SourceVal where
  | strSource (path : String)
  | peeweeSource (name : String)
  | otherSource
deriving DecidableEq

/-- `ModelMeta._get_source_type`. -/
def get_source_type : SourceVal → String
  | SourceVal.strSource _ => "string"
  | SourceVal.peeweeSource _ => "peewee_field"
  | SourceVal.otherSource => "other"

/-- A `FilterField` as declared on a model class body (before
`_configure_field` fills the defaults). -/
structure FilterField where
  request_arg_name : Option String
  source : Option SourceVal
  kind : FieldKind

/-- A field after `ModelMeta._configure_field`: name defaults applied. -/
structure ConfiguredField where
  field_name : String
  request_arg_name : String
  source : SourceVal
  kind : FieldKind
deriving DecidableEq

/-- `ModelMeta._configure_field`: a missing `request_arg_name` defaults to the
attribute name, a missing `source` defaults to the attribute name as a
dot-path string. -/
def configure_field (field_name : String) (f : FilterField) : ConfiguredField :=
  { field_name := field_name
    request_arg_name := f.request_arg_name.getD field_name
    source := f.source.getD (SourceVal.strSource field_name)
    kind := f.kind }

/-- The reserved-syntax check in `ModelMeta._validate_field_name`: a
`request_arg_name` containing the two-character run "__" is rejected. -/
def nameHasDunder (name : String) : Bool :=
  hasInfixB ['_', '_'] name.data

/-- Key synthesis of `ModelMeta._get_lookup_expressions`: bare name for the
equality lookup, `name!` (no separator) for not-equal, `name__suffix`
otherwise. -/
def supported_query_key (name lookup_expr : String) : String :=
  if lookup_expr = "" then name
  else if lookup_expr = "!" then name ++ lookup_expr
  else name ++ "__" ++ lookup_expr

/-- `ModelMeta._get_lookup_expressions` for one field: one
`key → (field, lookup_expr)` entry per supported lookup. -/
def get_lookup_expressions (cf : ConfiguredField) : List (String × ConfiguredField × String) :=
  (SUPPORTED_LOOKUP_EXPR cf.kind).map
    (fun e => (supported_query_key cf.request_arg_name e, cf, e))

/-- The multiset of textual query keys a model's fields synthesize (before
they are merged into the dict, where a duplicate would silently
overwrite). -/
def allQueryKeys (cfs : List ConfiguredField) : List String :=
  cfs.flatMap (fun cf => (SUPPORTED_LOOKUP_EXPR cf.kind).map
    (supported_query_key cf.request_arg_name))

/-- Python dict insertion: overwrite the existing key in place or append. -/
def dictInsert {β : Type} (m : List (String × β)) (k : String) (v : β) :
    List (String × β) :=
  if m.any (fun p => p.1 == k) then
    m.map (fun p => if p.1 == k then (k, v) else p)
  else m ++ [(k, v)]

/-- Python dict lookup (keys are unique by construction). -/
def dictGet {β : Type} (m : List (String × β)) (k : String) : Option β :=
  match m with
  | [] => none
  | (k2, v) :: rest => if k2 = k then some v else dictGet rest k

/-- `supported_query_key_field_dict` as built by the `ModelMeta.__new__` loop:
each field's lookup mappings merged in with dict-update semantics. -/
def buildQueryKeyDict (cfs : List ConfiguredField) :
    List (String × ConfiguredField × String) :=
  cfs.foldl
    (fun m cf => (get_lookup_expressions cf).foldl (fun m2 e => dictInsert m2 e.1 e.2) m)
    []

/-- Configuration errors raised by `ModelMeta.__new__` (both are
`ValueError`s in Python; the payload mirrors the message contents). -/
inductive ConfigError where
  | reservedName (field_name : String)
  | mixedSourceTypes (model_name : String) (kinds : List String)
deriving DecidableEq

/-- Distinct source-type names in first-occurrence order (Python collects
them in a `set`, whose iteration order is unspecified; only membership
matters to the claims). -/
def collectSourceTypes (cfs : List ConfiguredField) : List String :=
  cfs.foldl
    (fun acc cf =>
      let t := get_source_type cf.source
      if acc.contains t then acc else acc ++ [t])
    []

/-- The compiled artifacts `ModelMeta.__new__` attaches to the class. -/
structure CompiledModel where
  query_key_table : List (String × ConfiguredField × String)
  ordering_field_map : List (String × ConfiguredField)

/-- `ModelMeta.__new__` over the `FilterField` attributes of a class body, in
declaration order: configure each field, validate its name (raising
immediately), collect source types, build the query-key dict; after the
loop, validate source-kind homogeneity. -/
def ModelMeta_new (model_name : String) (attrs : List (String × FilterField)) :
    Except ConfigError CompiledModel :=
  match (attrs.map (fun a => configure_field a.1 a.2)).find?
      (fun cf => nameHasDunder cf.request_arg_name) with
  | some cf => Except.error (ConfigError.reservedName cf.field_name)
  | none =>
    if 1 < (collectSourceTypes (attrs.map (fun a => configure_field a.1 a.2))).length then
      Except.error (ConfigError.mixedSourceTypes model_name
        (collectSourceTypes (attrs.map (fun a => configure_field a.1 a.2))))
    else
      Except.ok
        { query_key_table := buildQueryKeyDict (attrs.map (fun a => configure_field a.1 a.2))
          ordering_field_map :=
            (attrs.map (fun a => configure_field a.1 a.2)).map (fun cf => (cf.field_name, cf)) }

/-- The dot-path key a field contributes on the iterable backend; non-string
sources belong to the structured-query backend, outside this embedding. -/
def sourceKey : SourceVal → String
  | SourceVal.strSource p => p
  | SourceVal.peeweeSource n => n
  | SourceVal.otherSource => ""

/-- `Model.cls_filter` from `model.py` (iterable-backend dispatch): walk the
request arguments in order; unknown keys and invalid parses contribute
nothing; each recognized term re-filters the running data. -/
def cls_filter (table : List (String × ConfiguredField × String)) (data : PyIterable)
    (request_args : List (String × PyVal)) : PyIterable :=
  request_args.foldl
    (fun d arg =>
      match dictGet table arg.1 with
      | none => d
      | some (cf, lookup_expr) =>
        match parse_value cf.kind arg.2 with
        | none => d
        | some parsed => IterableBackend.filter d (sourceKey cf.source) parsed lookup_expr)
    data

/-- The per-token loop of `Model.cls_order` (current snapshot of `model.py`):
strip a leading "-", resolve the name in `__ordering_field_map__`, skip
unknown names, and call `backend.order(data, field.source, is_negative)` —
three positional arguments against `IterableBackend.order`'s
two-parameter signature, an uncaught `TypeError`. -/
def cls_order_go (fieldMap : List (String × ConfiguredField)) :
    List String → List PyVal → Except PyErr (List PyVal)
  | [], data => Except.ok data
  | name :: rest, data =>
    let is_negative := decide (name.data.head? = some '-')
    let name2 := if is_negative then String.mk name.data.tail else name
    match dictGet fieldMap name2 with
    | none => cls_order_go fieldMap rest data
    | some cf =>
      match orderInvoke data [PyArg.argStr (sourceKey cf.source), PyArg.argBool is_negative] with
      | Except.ok d => cls_order_go fieldMap rest d
      | Except.error e => Except.error e

/-- `Model.cls_order` from `model.py` (current snapshot): read the reserved
`ordering` request key, return the data unchanged when absent or empty,
otherwise process the comma-separated tokens. -/
def cls_order (fieldMap : List (String × ConfiguredField)) (data : List PyVal)
    (request_args : List (String × PyVal)) : Except PyErr (List PyVal) :=
  let ordering :=
    match dictGet request_args "ordering" with
    | some (PyVal.pyStr s) => s
    | _ => ""
  if ordering = "" then Except.ok data
  else cls_order_go fieldMap (pySplit ordering ',') data

/-- Record used by the permissiveness witness (spec scenario 4). -/
def c2item : PyVal := PyVal.pyDict [("profile", PyVal.pyDict [("country", PyVal.pyStr "US")])]

/-- Scenario-1-style records (integer prices, in cents) for the
container-preservation witness. -/
def c6a : PyVal := PyVal.pyDict [("name", PyVal.pyStr "Apple"), ("price", PyVal.pyNum 120)]

/-- Second scenario record. -/
def c6b : PyVal := PyVal.pyDict [("name", PyVal.pyStr "Orange"), ("price", PyVal.pyNum 250)]

/-- Third scenario record. -/
def c6c : PyVal := PyVal.pyDict [("name", PyVal.pyStr "Banana"), ("price", PyVal.pyNum 80)]

/-- Ordering field map of a two-field iterable model, for evaluating
`cls_order` at the claimed multi-key request. -/
def c1fieldA : ConfiguredField :=
  { field_name := "A", request_arg_name := "A", source := SourceVal.strSource "A",
    kind := FieldKind.intF }

/-- Second ordering field. -/
def c1fieldB : ConfiguredField :=
  { field_name := "B", request_arg_name := "B", source := SourceVal.strSource "B",
    kind := FieldKind.intF }

/-- The `__ordering_field_map__` of the two-field model. -/
def c1map : List (String × ConfiguredField) := [("A", c1fieldA), ("B", c1fieldB)]

/-- First record of the ordering request. -/
def c1rec1 : PyVal := PyVal.pyDict [("A", PyVal.pyNum 1), ("B", PyVal.pyNum 2)]

/-- Second record of the ordering request. -/
def c1rec2 : PyVal := PyVal.pyDict [("A", PyVal.pyNum 1), ("B", PyVal.pyNum 3)]

/-- One request term as `cls_filter` resolves it: `none` when the key is
unknown or the value fails to parse, otherwise the
`(source path, parsed value, lookup)` triple handed to the backend. -/
def activeTerm (table : List (String × ConfiguredField × String)) (arg : String × PyVal) :
    Option (String × PyVal × String) :=
  match dictGet table arg.1 with
  | none => none
  | some (cf, lookup_expr) =>
    match parse_value cf.kind arg.2 with
    | none => none
    | some parsed => some (sourceKey cf.source, parsed, lookup_expr)

/-- Sequential application of resolved filter terms, the specification-side
reading of "applying only those pairs whose key is present and whose value
parses as valid". -/
def applyTerms (data : PyIterable) (terms : List (String × PyVal × String)) : PyIterable :=
  terms.foldl (fun d t => IterableBackend.filter d t.1 t.2.1 t.2.2) data

/-- The query-key table of the single-field model of spec scenario 5. -/
def c3nameField : ConfiguredField :=
  { field_name := "name", request_arg_name := "name", source := SourceVal.strSource "name",
    kind := FieldKind.strF }

/-- Scenario-5 table: only the key "name" is known. -/
def c3table : List (String × ConfiguredField × String) := [("name", c3nameField, "")]

/-- Scenario-5 data. -/
def c3data : PyIterable :=
  PyIterable.pyList [PyVal.pyDict [("name", PyVal.pyStr "Apple")],
                     PyVal.pyDict [("name", PyVal.pyStr "Orange")]]

/-- Field "x" of the key-collision counterexample (after configuration). -/
def c4fieldX : ConfiguredField := configure_field "x" ⟨none, none, FieldKind.intF⟩

/-- Field with explicit `request_arg_name` "x!", legal under the code's
validation (only "__" is rejected), whose bare Eq key collides with
field "x"'s NotEq key. -/
def c4fieldY : ConfiguredField := configure_field "y" ⟨some "x!", none, FieldKind.intF⟩

/-- The lookup suffixes (other than "" and "!") occurring in any field
kind's supported set. -/
def ESuffixes : List String := ["gt", "lt", "gte", "lte", "in", "nin"]

/-- A lookup expression as found in the supported sets: empty (Eq), bang
(NotEq), or one of the double-underscore suffixes. -/
def goodSuffix (e : String) : Prop := e = "" ∨ e = "!" ∨ e ∈ ESuffixes

/-- Tied-key records of the ordering round-trip counterexample. -/
def c5d1 : PyVal := PyVal.pyDict [("a", PyVal.pyNum 1), ("b", PyVal.pyNum 1)]

/-- Second tied-key record (differs in field "b"). -/
def c5d2 : PyVal := PyVal.pyDict [("a", PyVal.pyNum 1), ("b", PyVal.pyNum 2)]

/-- Distinct-key records of the round-trip witness. -/
def c5w1 : PyVal := PyVal.pyDict [("a", PyVal.pyNum 2)]

/-- Second distinct-key record. -/
def c5w2 : PyVal := PyVal.pyDict [("a", PyVal.pyNum 1)]

/-- Decidable equality on `Except` results, for concrete evaluations. -/
instance {ε α : Type} [DecidableEq ε] [DecidableEq α] : DecidableEq (Except ε α) :=
  fun a b =>
    match a, b with
    | Except.ok x, Except.ok y =>
      match decEq x y with
      | isTrue h => isTrue (h ▸ rfl)
      | isFalse h => isFalse (fun hh => h (by injection hh))
    | Except.error x, Except.error y =>
      match decEq x y with
      | isTrue h => isTrue (h ▸ rfl)
      | isFalse h => isFalse (fun hh => h (by injection hh))
    | Except.ok _, Except.error _ => isFalse (fun hh => nomatch hh)
    | Except.error _, Except.ok _ => isFalse (fun hh => nomatch hh)

theorem elemsOf_mkIterable (k : PyKind) (xs : List PyVal) : elemsOf (mkIterable k xs) = xs := by
  cases k <;> rfl

theorem kindOf_mkIterable (k : PyKind) (xs : List PyVal) : kindOf (mkIterable k xs) = k := by
  cases k <;> rfl

theorem mkIterable_kindOf_elemsOf (d : PyIterable) : mkIterable (kindOf d) (elemsOf d) = d := by
  cases d <;> rfl

theorem IterableBackend.filter_eq (data : PyIterable) (key : String) (value : PyVal)
    (lookup_expr : String) :
    IterableBackend.filter data key value lookup_expr =
      mkIterable (filterKind (kindOf data))
        ((elemsOf data).filter (fun item => match_item item key value lookup_expr)) := rfl

/-- `_match_item` evaluates to pass whenever its `try` block raises. -/
theorem match_item_of_error (item : PyVal) (key : String) (value : PyVal)
    (lookup_expr : String) (e : PyErr)
    (h : evalPredicate item key value lookup_expr = Except.error e) :
    match_item item key value lookup_expr = true := by
  unfold match_item
  rw [h]

/-- Claim C2: the iterable backend's predicate evaluation is permissive by
default — for every record, dot-path key, value and lookup, if the key
cannot be resolved in the record (missing segment or non-indexable
intermediate) or the comparison raises a type mismatch, the predicate
evaluates to pass and the record is kept by `IterableBackend.filter`. -/
theorem C2_permissive_default (item : PyVal) (key : String) (value : PyVal)
    (lookup_expr : String)
    (h : (∃ e, get_nested_value item key = Except.error e) ∨
         (∃ v op, get_nested_value item key = Except.ok v ∧
            LOOKUP_EXPR_OPERATOR_MAP lookup_expr = some op ∧
            op v value = Except.error PyErr.typeError)) :
    match_item item key value lookup_expr = true ∧
    ∀ data : PyIterable, item ∈ elemsOf data →
      item ∈ elemsOf (IterableBackend.filter data key value lookup_expr) := by
  have hmatch : match_item item key value lookup_expr = true := by
    rcases h with ⟨e, he⟩ | ⟨v, op, hv, hop, herr⟩
    · exact match_item_of_error item key value lookup_expr e
        (by simp [evalPredicate, he])
    · exact match_item_of_error item key value lookup_expr PyErr.typeError
        (by simp [evalPredicate, hv, hop, herr])
  refine ⟨hmatch, fun data hmem => ?_⟩
  rw [IterableBackend.filter_eq, elemsOf_mkIterable]
  exact List.mem_filter.mpr ⟨hmem, hmatch⟩

/-- Witness for C2 at the spec's own scenario: `profile.missing=US` on a
record without that key still passes. -/
theorem C2_permissive_default_witness :
    match_item c2item "profile.missing" (PyVal.pyStr "US") "" = true ∧
    c2item ∈ elemsOf (IterableBackend.filter (PyIterable.pyList [c2item]) "profile.missing"
      (PyVal.pyStr "US") "") := by
  have h := C2_permissive_default c2item "profile.missing" (PyVal.pyStr "US") ""
    (Or.inl ⟨PyErr.keyError, by decide⟩)
  exact ⟨h.1, h.2 (PyIterable.pyList [c2item]) (by decide)⟩

/-- Claim C6: a single `IterableBackend.filter` pass is stable and
container-preserving — on a list, tuple or set input it returns a new
collection of the same container kind holding exactly the records that
satisfy the predicate, in their input order. -/
theorem C6_filter_stable_container (data : PyIterable) (key : String) (value : PyVal)
    (lookup_expr : String)
    (h : kindOf data = PyKind.list ∨ kindOf data = PyKind.tuple ∨ kindOf data = PyKind.set) :
    kindOf (IterableBackend.filter data key value lookup_expr) = kindOf data ∧
    elemsOf (IterableBackend.filter data key value lookup_expr) =
      (elemsOf data).filter (fun item => match_item item key value lookup_expr) := by
  constructor
  · rw [IterableBackend.filter_eq, kindOf_mkIterable]
    rcases h with h | h | h <;> rw [h] <;> rfl
  · rw [IterableBackend.filter_eq, elemsOf_mkIterable]

/-- Witness for C6: scenario-1-style list filtering keeps kind and order. -/
theorem C6_filter_stable_container_witness :
    kindOf (IterableBackend.filter (PyIterable.pyList [c6a, c6b, c6c]) "price"
        (PyVal.pyNum 100) "gte") = PyKind.list ∧
    elemsOf (IterableBackend.filter (PyIterable.pyList [c6a, c6b, c6c]) "price"
        (PyVal.pyNum 100) "gte") = [c6a, c6b] := by
  have h := C6_filter_stable_container (PyIterable.pyList [c6a, c6b, c6c]) "price"
    (PyVal.pyNum 100) "gte" (Or.inl rfl)
  exact ⟨h.1, by rw [h.2]; decide⟩

/-- Claim C10: the "nin" lookup suffix is advertised by the base and string
field kinds and lands in the query-key table, but the iterable backend's
operator map has no entry for it, so the missing-operator `KeyError` is
swallowed and a "nin" filter keeps every record. -/
theorem C10_nin_lookup_dead :
    "nin" ∈ SUPPORTED_LOOKUP_EXPR FieldKind.base ∧
    "nin" ∈ SUPPORTED_LOOKUP_EXPR FieldKind.strF ∧
    (∀ fname n src,
      (supported_query_key n "nin", ⟨fname, n, src, FieldKind.strF⟩, "nin") ∈
        get_lookup_expressions ⟨fname, n, src, FieldKind.strF⟩) ∧
    LOOKUP_EXPR_OPERATOR_MAP "nin" = none ∧
    (∀ item key value, match_item item key value "nin" = true) ∧
    (∀ data key value, elemsOf (IterableBackend.filter data key value "nin") = elemsOf data) := by
  have hmatch : ∀ item key value, match_item item key value "nin" = true := by
    intro item key value
    unfold match_item evalPredicate
    cases h : get_nested_value item key <;> simp [LOOKUP_EXPR_OPERATOR_MAP]
  refine ⟨by decide, by decide, ?_, rfl, hmatch, ?_⟩
  · intro fname n src
    unfold get_lookup_expressions
    exact List.mem_map.mpr ⟨"nin", show "nin" ∈ SUPPORTED_LOOKUP_EXPR FieldKind.strF by decide, rfl⟩
  · intro data key value
    rw [IterableBackend.filter_eq, elemsOf_mkIterable]
    exact List.filter_eq_self.mpr (fun a _ => hmatch a key value)

/-- Claim C1 (failing evaluation): on the current code, `cls_order` with the
multi-key request `ordering=A,-B` over an in-memory sequence does not run
the reverse-pass stable-sort algorithm at all — the per-key call
`backend.order(data, field.source, is_negative)` passes two positional
arguments to `IterableBackend.order`'s single `ordering` parameter, and
the uncaught `TypeError` aborts the pipeline. -/
theorem C1_cls_order_type_mismatch :
    cls_order c1map [c1rec1, c1rec2] [("ordering", PyVal.pyStr "A,-B")] =
      Except.error PyErr.typeError := by decide

/-- One step of the `cls_filter` fold: the head request argument contributes
its resolved term (or nothing) before the rest is processed. -/
theorem cls_filter_cons (table : List (String × ConfiguredField × String))
    (data : PyIterable) (arg : String × PyVal) (rest : List (String × PyVal)) :
    cls_filter table data (arg :: rest) =
      cls_filter table (applyTerms data (activeTerm table arg).toList) rest := by
  unfold cls_filter activeTerm applyTerms
  simp only [List.foldl_cons]
  cases hd : dictGet table arg.1 with
  | none => simp
  | some entry =>
    obtain ⟨cf, le⟩ := entry
    cases hp : parse_value cf.kind arg.2 with
    | none => simp [hp]
    | some parsed => simp [hp]

/-- The `cls_filter` fold with per-term skipping equals the sequential
application of exactly the resolved terms. -/
theorem cls_filter_eq_applyTerms (table : List (String × ConfiguredField × String))
    (data : PyIterable) (request_args : List (String × PyVal)) :
    cls_filter table data request_args =
      applyTerms data (request_args.filterMap (activeTerm table)) := by
  induction request_args generalizing data with
  | nil => rfl
  | cons arg rest ih =>
    rw [List.filterMap_cons, cls_filter_cons]
    cases ha : activeTerm table arg with
    | none =>
      simp only [Option.toList, applyTerms, List.foldl_nil]
      exact ih data
    | some t =>
      simp only [Option.toList, applyTerms, List.foldl_cons, List.foldl_nil]
      exact ih _

/-- Claim C3: request-time filter terms degrade gracefully — `cls_filter`
returns exactly the result of applying only the (key, value) pairs whose
key is in the compiled query-key table and whose value parses as valid;
in particular filtering by `foo=bar, name=Apple` with unknown `foo`
equals filtering by `name=Apple` alone (spec scenario 5). -/
theorem C3_unknown_terms_dropped :
    (∀ (table : List (String × ConfiguredField × String)) (data : PyIterable)
       (request_args : List (String × PyVal)),
      cls_filter table data request_args =
        applyTerms data (request_args.filterMap (activeTerm table))) ∧
    cls_filter c3table c3data [("foo", PyVal.pyStr "bar"), ("name", PyVal.pyStr "Apple")] =
      cls_filter c3table c3data [("name", PyVal.pyStr "Apple")] :=
  ⟨cls_filter_eq_applyTerms, by decide⟩

/-- Containers with the same kind and the same elements are equal. -/
theorem iterable_ext (a b : PyIterable) (hk : kindOf a = kindOf b)
    (he : elemsOf a = elemsOf b) : a = b := by
  rw [← mkIterable_kindOf_elemsOf a, ← mkIterable_kindOf_elemsOf b, hk, he]

theorem filterKind_idem (k : PyKind) : filterKind (filterKind k) = filterKind k := by
  cases k <;> rfl

/-- Elements surviving a sequence of filter terms: the conjunction of all the
term predicates over the original elements. -/
theorem applyTerms_elems (data : PyIterable) (ts : List (String × PyVal × String)) :
    elemsOf (applyTerms data ts) =
      (elemsOf data).filter (fun r => ts.all (fun t => match_item r t.1 t.2.1 t.2.2)) := by
  induction ts generalizing data with
  | nil => simp [applyTerms]
  | cons t ts ih =>
    show elemsOf (applyTerms (IterableBackend.filter data t.1 t.2.1 t.2.2) ts) = _
    rw [ih, IterableBackend.filter_eq, elemsOf_mkIterable, List.filter_filter]
    apply List.filter_congr
    intro a _
    rw [List.all_cons, Bool.and_comm]

/-- Kind of the container after a sequence of filter terms. -/
theorem applyTerms_kind (data : PyIterable) (ts : List (String × PyVal × String)) :
    kindOf (applyTerms data ts) =
      if ts = [] then kindOf data else filterKind (kindOf data) := by
  induction ts generalizing data with
  | nil => simp [applyTerms]
  | cons t ts ih =>
    show kindOf (applyTerms (IterableBackend.filter data t.1 t.2.1 t.2.2) ts) = _
    rw [ih, IterableBackend.filter_eq, kindOf_mkIterable]
    by_cases h0 : ts = [] <;> simp [h0, filterKind_idem]

/-- A permutation of a list leaves `List.all` unchanged. -/
theorem perm_all {α : Type} {l1 l2 : List α} (h : l1.Perm l2) (f : α → Bool) :
    l1.all f = l2.all f := by
  cases hb : l2.all f with
  | true => exact List.all_eq_true.mpr (fun x hx => List.all_eq_true.mp hb x (h.mem_iff.mp hx))
  | false =>
    cases hb2 : l1.all f with
    | false => rfl
    | true => rw [List.all_eq_true.mpr (fun x hx => List.all_eq_true.mp hb2 x (h.mem_iff.mpr hx))] at hb; exact hb

/-- Claim C8: filter application is commutative — `cls_filter` over two
request-argument lists holding the same (key, value) pairs in different
orders produces the same result; the enumeration order of request
parameters never affects which records survive. -/
theorem C8_filter_commutative (table : List (String × ConfiguredField × String))
    (data : PyIterable) (args1 args2 : List (String × PyVal)) (h : args1.Perm args2) :
    cls_filter table data args1 = cls_filter table data args2 := by
  rw [cls_filter_eq_applyTerms, cls_filter_eq_applyTerms]
  have hp : (args1.filterMap (activeTerm table)).Perm (args2.filterMap (activeTerm table)) :=
    h.filterMap _
  apply iterable_ext
  · rw [applyTerms_kind, applyTerms_kind]
    by_cases h0 : args1.filterMap (activeTerm table) = []
    · rw [if_pos h0, if_pos ((h0 ▸ hp : List.Perm [] _).symm.eq_nil)]
    · refine (if_neg h0).trans (if_neg fun hc => h0 ?_).symm
      rw [hc] at hp
      exact hp.eq_nil
  · rw [applyTerms_elems, applyTerms_elems]
    apply List.filter_congr
    intro a _
    exact perm_all hp _

/-- Witness for C8: scenario-5 arguments in both orders give one result. -/
theorem C8_filter_commutative_witness :
    [("foo", PyVal.pyStr "bar"), ("name", PyVal.pyStr "Apple")].Perm
      [("name", PyVal.pyStr "Apple"), ("foo", PyVal.pyStr "bar")] ∧
    cls_filter c3table c3data [("foo", PyVal.pyStr "bar"), ("name", PyVal.pyStr "Apple")] =
      cls_filter c3table c3data [("name", PyVal.pyStr "Apple"), ("foo", PyVal.pyStr "bar")] :=
  ⟨List.Perm.swap _ _ _, C8_filter_commutative c3table c3data _ _ (List.Perm.swap _ _ _)⟩


/-- Claim C7: the compiled query-key table follows the lookup-key grammar
restricted to each field's supported lookups — bare name for Eq, `name!`
with no separator for NotEq, `name__suffix` otherwise, for exactly the
suffixes the field kind supports; a Boolean field supports only Eq and so
contributes only its bare-name key. -/
theorem C7_lookup_key_grammar :
    (∀ n : String, supported_query_key n "" = n) ∧
    (∀ n : String, supported_query_key n "!" = n ++ "!") ∧
    (∀ n e : String, e ≠ "" → e ≠ "!" → supported_query_key n e = n ++ "__" ++ e) ∧
    (∀ (kind : FieldKind) (fname n : String) (src : SourceVal) (k e : String),
      (k, (⟨fname, n, src, kind⟩ : ConfiguredField), e) ∈
          get_lookup_expressions ⟨fname, n, src, kind⟩ ↔
        (e ∈ SUPPORTED_LOOKUP_EXPR kind ∧ k = supported_query_key n e)) ∧
    SUPPORTED_LOOKUP_EXPR FieldKind.booleanF = [""] := by
  refine ⟨fun n => by simp [supported_query_key], fun n => by simp [supported_query_key],
    fun n e h1 h2 => by rw [supported_query_key, if_neg h1, if_neg h2], ?_, rfl⟩
  intro kind fname n src k e
  unfold get_lookup_expressions
  constructor
  · intro hmem
    obtain ⟨a, ha, heq⟩ := List.mem_map.mp hmem
    have h1 : supported_query_key n a = k := congrArg Prod.fst heq
    have h3 : a = e := congrArg (fun p => p.2.2) heq
    subst h3
    exact ⟨ha, h1.symm⟩
  · rintro ⟨he, rfl⟩
    exact List.mem_map.mpr ⟨e, he, rfl⟩


/-- Witness for C7 at concrete inputs: the three grammar shapes and the
boolean field's single bare key. -/
theorem C7_lookup_key_grammar_witness :
    supported_query_key "price" "gte" = "price__gte" ∧
    ("active", (⟨"active", "active", SourceVal.strSource "active", FieldKind.booleanF⟩ :
        ConfiguredField), "") ∈
      get_lookup_expressions ⟨"active", "active", SourceVal.strSource "active",
        FieldKind.booleanF⟩ := by
  refine ⟨C7_lookup_key_grammar.2.2.1 "price" "gte" (by decide) (by decide), ?_⟩
  exact (C7_lookup_key_grammar.2.2.2.1 FieldKind.booleanF "active" "active"
    (SourceVal.strSource "active") "active" "").mpr ⟨by decide, by decide⟩


/-- Membership in the collected source-type names. -/
theorem mem_collectSourceTypes_aux (cfs : List ConfiguredField) :
    ∀ (acc : List String) (x : String),
      x ∈ cfs.foldl
          (fun acc cf =>
            let t := get_source_type cf.source
            if acc.contains t then acc else acc ++ [t]) acc ↔
        x ∈ acc ∨ ∃ cf ∈ cfs, get_source_type cf.source = x := by
  induction cfs with
  | nil => intro acc x; simp
  | cons cf cfs ih =>
    intro acc x
    rw [List.foldl_cons, ih]
    by_cases hc : acc.contains (get_source_type cf.source)
    · simp only [hc, if_true]
      constructor
      · rintro (hx | hex)
        · exact Or.inl hx
        · exact Or.inr (by obtain ⟨w, hw, he⟩ := hex; exact ⟨w, List.mem_cons_of_mem _ hw, he⟩)
      · rintro (hx | ⟨w, hw, he⟩)
        · exact Or.inl hx
        · rcases List.mem_cons.mp hw with rfl | hw2
          · refine Or.inl (he ▸ ?_)
            simpa using hc
          · exact Or.inr ⟨w, hw2, he⟩
    · simp only [hc, if_false]
      constructor
      · rintro (hx | hex)
        · rcases List.mem_append.mp hx with hx2 | hx2
          · exact Or.inl hx2
          · exact Or.inr ⟨cf, List.mem_cons_self _ _, (List.mem_singleton.mp hx2).symm⟩
        · exact Or.inr (by obtain ⟨w, hw, he⟩ := hex; exact ⟨w, List.mem_cons_of_mem _ hw, he⟩)
      · rintro (hx | ⟨w, hw, he⟩)
        · exact Or.inl (List.mem_append.mpr (Or.inl hx))
        · rcases List.mem_cons.mp hw with rfl | hw2
          · exact Or.inl (List.mem_append.mpr (Or.inr (List.mem_singleton.mpr he.symm)))
          · exact Or.inr ⟨w, hw2, he⟩

/-- Membership in `collectSourceTypes`. -/
theorem mem_collectSourceTypes (cfs : List ConfiguredField) (x : String) :
    x ∈ collectSourceTypes cfs ↔ ∃ cf ∈ cfs, get_source_type cf.source = x := by
  rw [collectSourceTypes, mem_collectSourceTypes_aux]
  simp

/-- Folding fields whose source type is already collected changes nothing. -/
theorem collectSourceTypes_const_aux (t : String) :
    ∀ (cfs : List ConfiguredField) (acc : List String),
      (∀ cf ∈ cfs, get_source_type cf.source = t) → acc.contains t = true →
      cfs.foldl
          (fun acc cf =>
            let t := get_source_type cf.source
            if acc.contains t then acc else acc ++ [t]) acc = acc := by
  intro cfs
  induction cfs with
  | nil => intro acc _ _; rfl
  | cons cf cfs ih =>
    intro acc hall hacc
    rw [List.foldl_cons]
    have ht : get_source_type cf.source = t := hall cf (List.mem_cons_self _ _)
    simp only [ht, hacc, if_true]
    exact ih acc (fun w hw => hall w (List.mem_cons_of_mem _ hw)) hacc

/-- Homogeneous source kinds collect to at most one name. -/
theorem collectSourceTypes_homogeneous (cfs : List ConfiguredField) (t : String)
    (hall : ∀ cf ∈ cfs, get_source_type cf.source = t) :
    collectSourceTypes cfs = [] ∨ collectSourceTypes cfs = [t] := by
  cases cfs with
  | nil => exact Or.inl rfl
  | cons cf cfs =>
    right
    rw [collectSourceTypes, List.foldl_cons]
    have ht : get_source_type cf.source = t := hall cf (List.mem_cons_self _ _)
    have hnc : ([] : List String).contains (get_source_type cf.source) = false := rfl
    simp only [ht, hnc, if_false, List.nil_append]
    exact collectSourceTypes_const_aux t cfs [t]
      (fun w hw => hall w (List.mem_cons_of_mem _ hw)) (by simp)

/-- A list containing two distinct elements has length at least two. -/
theorem two_mem_one_lt {α : Type} {l : List α} {a b : α} (ha : a ∈ l) (hb : b ∈ l)
    (hne : a ≠ b) : 1 < l.length := by
  cases l with
  | nil => cases ha
  | cons x xs =>
    cases xs with
    | nil =>
      rw [List.mem_singleton] at ha hb
      exact absurd (ha.trans hb.symm) hne
    | cons y ys => simp only [List.length_cons]; omega

/-- Claim C9: source-kind homogeneity is enforced at model-definition time —
mixing a dot-path string source with a structured-field handle raises a
configuration error naming the offending kinds, while a model whose
fields all share one source kind compiles without this error. -/
theorem C9_source_kind_homogeneity (model_name : String) (attrs : List (String × FilterField))
    (hnames : ∀ cf ∈ attrs.map (fun a => configure_field a.1 a.2),
      nameHasDunder cf.request_arg_name = false) :
    ((∃ cf1 ∈ attrs.map (fun a => configure_field a.1 a.2),
        get_source_type cf1.source = "string") →
     (∃ cf2 ∈ attrs.map (fun a => configure_field a.1 a.2),
        get_source_type cf2.source = "peewee_field") →
      ∃ kinds, ModelMeta_new model_name attrs =
          Except.error (ConfigError.mixedSourceTypes model_name kinds) ∧
        "string" ∈ kinds ∧ "peewee_field" ∈ kinds) ∧
    ((∀ cf1 ∈ attrs.map (fun a => configure_field a.1 a.2),
      ∀ cf2 ∈ attrs.map (fun a => configure_field a.1 a.2),
        get_source_type cf1.source = get_source_type cf2.source) →
      ∃ m, ModelMeta_new model_name attrs = Except.ok m) := by
  have hfind : (attrs.map (fun a => configure_field a.1 a.2)).find?
      (fun cf => nameHasDunder cf.request_arg_name) = none :=
    List.find?_eq_none.mpr (fun cf hcf => by rw [hnames cf hcf]; exact Bool.false_ne_true)
  constructor
  · intro hs hp
    refine ⟨collectSourceTypes (attrs.map (fun a => configure_field a.1 a.2)), ?_, ?_, ?_⟩
    · have hlen : 1 < (collectSourceTypes (attrs.map (fun a => configure_field a.1 a.2))).length :=
        two_mem_one_lt ((mem_collectSourceTypes _ _).mpr hs)
          ((mem_collectSourceTypes _ _).mpr hp) (by decide)
      unfold ModelMeta_new
      rw [hfind]
      simp only [hlen, if_true]
    · exact (mem_collectSourceTypes _ _).mpr hs
    · exact (mem_collectSourceTypes _ _).mpr hp
  · intro hhom
    have hle : ¬ 1 < (collectSourceTypes (attrs.map (fun a => configure_field a.1 a.2))).length := by
      cases hattrs : attrs.map (fun a => configure_field a.1 a.2) with
      | nil => decide
      | cons cf cfs =>
        have hall : ∀ w ∈ cf :: cfs, get_source_type w.source = get_source_type cf.source := by
          intro w hw
          rw [← hattrs] at hw
          exact hhom w hw cf (by rw [hattrs]; exact List.mem_cons_self _ _)
        rcases collectSourceTypes_homogeneous (cf :: cfs) (get_source_type cf.source) hall with
          h0 | h1
        · rw [h0]; decide
        · rw [h1]; simp
    refine ⟨{ query_key_table := buildQueryKeyDict (attrs.map (fun a => configure_field a.1 a.2))
              ordering_field_map :=
                (attrs.map (fun a => configure_field a.1 a.2)).map (fun cf => (cf.field_name, cf)) },
      ?_⟩
    unfold ModelMeta_new
    rw [hfind]
    simp only [hle, if_false]

/-- Witness for C9: a two-field model mixing a string source with a peewee
handle errors naming both kinds; the same fields with string sources
compile. -/
theorem C9_source_kind_homogeneity_witness :
    (∃ kinds, ModelMeta_new "M"
        [("a", ⟨none, some (SourceVal.strSource "a"), FieldKind.intF⟩),
         ("b", ⟨none, some (SourceVal.peeweeSource "b"), FieldKind.intF⟩)] =
        Except.error (ConfigError.mixedSourceTypes "M" kinds) ∧
      "string" ∈ kinds ∧ "peewee_field" ∈ kinds) ∧
    (∃ m, ModelMeta_new "M"
        [("a", ⟨none, some (SourceVal.strSource "a"), FieldKind.intF⟩),
         ("b", ⟨none, some (SourceVal.strSource "b"), FieldKind.intF⟩)] = Except.ok m) := by
  constructor
  · exact (C9_source_kind_homogeneity "M"
      [("a", ⟨none, some (SourceVal.strSource "a"), FieldKind.intF⟩),
       ("b", ⟨none, some (SourceVal.peeweeSource "b"), FieldKind.intF⟩)]
      (by decide)).1
      ⟨configure_field "a" ⟨none, some (SourceVal.strSource "a"), FieldKind.intF⟩,
        by decide, by decide⟩
      ⟨configure_field "b" ⟨none, some (SourceVal.peeweeSource "b"), FieldKind.intF⟩,
        by decide, by decide⟩
  · exact (C9_source_kind_homogeneity "M"
      [("a", ⟨none, some (SourceVal.strSource "a"), FieldKind.intF⟩),
       ("b", ⟨none, some (SourceVal.strSource "b"), FieldKind.intF⟩)]
      (by decide)).2 (by decide)


/-- `hasInfixB` decides contiguous-sublist containment. -/
theorem hasInfixB_iff (needle hay : List Char) :
    hasInfixB needle hay = true ↔ needle <:+: hay := by
  induction hay with
  | nil =>
    show needle.isEmpty = true ↔ _
    rw [List.isEmpty_iff, List.infix_nil]
  | cons c rest ih =>
    show (needle.isPrefixOf (c :: rest) || hasInfixB needle rest) = true ↔ _
    rw [Bool.or_eq_true, List.isPrefixOf_iff_prefix, ih, List.infix_cons_iff]

instance (e : String) : Decidable (goodSuffix e) := by
  unfold goodSuffix; infer_instance

/-- Every supported lookup expression of every field kind is well-shaped. -/
theorem supported_goodSuffix (k : FieldKind) :
    ∀ e ∈ SUPPORTED_LOOKUP_EXPR k, goodSuffix e := by
  cases k <;> decide

/-- The supported sets list each lookup once. -/
theorem supported_nodup (k : FieldKind) : (SUPPORTED_LOOKUP_EXPR k).Nodup := by
  cases k <;> decide

/-- Shape facts about the double-underscore suffixes. -/
theorem esuffix_facts :
    ∀ e ∈ ESuffixes, e ≠ "" ∧ e ≠ "!" ∧ '_' ∉ e.data ∧ e.data ≠ [] := by decide

/-- Key shape for the Eq lookup. -/
theorem qkey_empty (n : String) : supported_query_key n "" = n := by
  simp [supported_query_key]

/-- Key shape for the NotEq lookup. -/
theorem qkey_bang (n : String) : supported_query_key n "!" = n ++ "!" := by
  simp [supported_query_key]

/-- Key shape for the remaining lookups. -/
theorem qkey_suffix (n e : String) (h1 : e ≠ "") (h2 : e ≠ "!") :
    supported_query_key n e = n ++ "__" ++ e := by
  rw [supported_query_key, if_neg h1, if_neg h2]

/-- A bang-free name is never another name extended with "!". -/
theorem bare_ne_bang (n1 n2 : String) (h : '!' ∉ n1.data) : n1 ≠ n2 ++ "!" := by
  intro heq
  apply h
  rw [String.ext_iff, String.data_append] at heq
  rw [heq]
  exact List.mem_append.mpr (Or.inr (by decide))

/-- A name without "__" is never another name extended with a
double-underscore suffix. -/
theorem bare_ne_suffix (n1 n2 e : String) (h : ¬ ['_', '_'] <:+: n1.data) :
    n1 ≠ n2 ++ "__" ++ e := by
  intro heq
  apply h
  rw [String.ext_iff, String.data_append, String.data_append] at heq
  rw [heq]
  exact ⟨n2.data, e.data, by simp⟩

/-- A bang key never coincides with a double-underscore key. -/
theorem bang_ne_suffix (n1 n2 e : String) (he : e ∈ ESuffixes) :
    n1 ++ "!" ≠ n2 ++ "__" ++ e := by
  intro heq
  rw [String.ext_iff, String.data_append, String.data_append, String.data_append] at heq
  have hd := congrArg (fun l => l.reverse.head?) heq
  simp only [List.reverse_append, List.head?_append] at hd
  fin_cases he <;> simp at hd

/-- Splitting `n1 ++ "__" ++ e1 = n2 ++ "__" ++ e2` when `n2` extends `n1`:
the extension must be empty, otherwise either a suffix starts with an
underscore or `n2` contains "__". -/
theorem suffix_eq_aux (n1 n2 e1 e2 : String) (h2 : ¬ ['_', '_'] <:+: n2.data)
    (he1 : '_' ∉ e1.data) (t : List Char) (hc : n2.data = n1.data ++ t)
    (hb : ['_', '_'] ++ e1.data = t ++ (['_', '_'] ++ e2.data)) :
    n1 = n2 ∧ e1.data = e2.data := by
  match t with
  | [] =>
    refine ⟨String.ext_iff.mpr (by rw [hc, List.append_nil]), ?_⟩
    rw [List.nil_append] at hb
    exact List.append_cancel_left hb
  | [c1] =>
    exfalso
    apply he1
    have h1 : '_' :: '_' :: e1.data = c1 :: '_' :: '_' :: e2.data := hb
    injection h1 with h1a h1b
    injection h1b with h2a h2b
    rw [h2b]
    exact List.mem_cons_self _ _
  | c1 :: c2 :: t2 =>
    exfalso
    apply h2
    have h1 : '_' :: '_' :: e1.data = c1 :: c2 :: (t2 ++ (['_', '_'] ++ e2.data)) := hb
    injection h1 with h1a h1b
    injection h1b with h2a h2b
    refine ⟨n1.data, t2, ?_⟩
    rw [hc, ← h1a, ← h2a]
    simp

/-- Two double-underscore keys built from "__"-free names agree exactly on
their parts. -/
theorem suffix_eq (n1 n2 e1 e2 : String) (h1 : ¬ ['_', '_'] <:+: n1.data)
    (h2 : ¬ ['_', '_'] <:+: n2.data) (he1 : e1 ∈ ESuffixes) (he2 : e2 ∈ ESuffixes)
    (heq : n1 ++ "__" ++ e1 = n2 ++ "__" ++ e2) : n1 = n2 ∧ e1 = e2 := by
  rw [String.ext_iff] at heq
  simp only [String.data_append] at heq
  rw [List.append_assoc n1.data, List.append_assoc n2.data] at heq
  rcases List.append_eq_append_iff.mp heq with ⟨t, hc, hb⟩ | ⟨t, hc, hb⟩
  · obtain ⟨hn, he⟩ := suffix_eq_aux n1 n2 e1 e2 h2 ((esuffix_facts e1 he1).2.2.1) t hc hb
    exact ⟨hn, String.ext_iff.mpr he⟩
  · obtain ⟨hn, he⟩ := suffix_eq_aux n2 n1 e2 e1 h1 ((esuffix_facts e2 he2).2.2.1) t hc hb
    exact ⟨hn.symm, (String.ext_iff.mpr he).symm⟩

/-- Injectivity of the key grammar on validated names: distinct
(name, lookup) pairs synthesize distinct keys. -/
theorem supported_query_key_inj (n1 n2 e1 e2 : String)
    (hd1 : nameHasDunder n1 = false) (hd2 : nameHasDunder n2 = false)
    (hb1 : '!' ∉ n1.data) (hb2 : '!' ∉ n2.data)
    (s1 : goodSuffix e1) (s2 : goodSuffix e2)
    (heq : supported_query_key n1 e1 = supported_query_key n2 e2) :
    n1 = n2 ∧ e1 = e2 := by
  have hi1 : ¬ ['_', '_'] <:+: n1.data := fun hcon => by
    have hb := (hasInfixB_iff ['_', '_'] n1.data).mpr hcon
    rw [nameHasDunder] at hd1
    rw [hb] at hd1
    exact Bool.noConfusion hd1
  have hi2 : ¬ ['_', '_'] <:+: n2.data := fun hcon => by
    have hb := (hasInfixB_iff ['_', '_'] n2.data).mpr hcon
    rw [nameHasDunder] at hd2
    rw [hb] at hd2
    exact Bool.noConfusion hd2
  rcases s1 with rfl | rfl | hm1
  · rcases s2 with rfl | rfl | hm2
    · rw [qkey_empty, qkey_empty] at heq
      exact ⟨heq, rfl⟩
    · rw [qkey_empty, qkey_bang] at heq
      exact absurd heq (bare_ne_bang n1 n2 hb1)
    · obtain ⟨hne, hnb, _, _⟩ := esuffix_facts e2 hm2
      rw [qkey_empty, qkey_suffix n2 e2 hne hnb] at heq
      exact absurd heq (bare_ne_suffix n1 n2 e2 hi1)
  · rcases s2 with rfl | rfl | hm2
    · rw [qkey_bang, qkey_empty] at heq
      exact absurd heq.symm (bare_ne_bang n2 n1 hb2)
    · rw [qkey_bang, qkey_bang] at heq
      have hdata := String.ext_iff.mp heq
      simp only [String.data_append] at hdata
      exact ⟨String.ext_iff.mpr (List.append_cancel_right hdata), rfl⟩
    · obtain ⟨hne, hnb, _, _⟩ := esuffix_facts e2 hm2
      rw [qkey_bang, qkey_suffix n2 e2 hne hnb] at heq
      exact absurd heq (bang_ne_suffix n1 n2 e2 hm2)
  · obtain ⟨hne1, hnb1, _, _⟩ := esuffix_facts e1 hm1
    rcases s2 with rfl | rfl | hm2
    · rw [qkey_suffix n1 e1 hne1 hnb1, qkey_empty] at heq
      exact absurd heq.symm (bare_ne_suffix n2 n1 e1 hi2)
    · rw [qkey_suffix n1 e1 hne1 hnb1, qkey_bang] at heq
      exact absurd heq.symm (bang_ne_suffix n2 n1 e1 hm1)
    · obtain ⟨hne2, hnb2, _, _⟩ := esuffix_facts e2 hm2
      rw [qkey_suffix n1 e1 hne1 hnb1, qkey_suffix n2 e2 hne2 hnb2] at heq
      exact suffix_eq n1 n2 e1 e2 hi1 hi2 hm1 hm2 heq

/-- Membership in the synthesized key multiset. -/
theorem mem_allQueryKeys (cfs : List ConfiguredField) (k : String) :
    k ∈ allQueryKeys cfs ↔
      ∃ cf ∈ cfs, ∃ e ∈ SUPPORTED_LOOKUP_EXPR cf.kind,
        k = supported_query_key cf.request_arg_name e := by
  simp only [allQueryKeys, List.mem_flatMap, List.mem_map]
  constructor
  · rintro ⟨cf, hcf, e, he, rfl⟩
    exact ⟨cf, hcf, e, he, rfl⟩
  · rintro ⟨cf, hcf, e, he, rfl⟩
    exact ⟨cf, hcf, e, he, rfl⟩

/-- Claim C4 (amended): for every compiled model whose fields' request
argument names are pairwise distinct and contain neither "!" nor the
reserved "__", the textual keys synthesized for all (field, lookup) pairs
are pairwise distinct, so no table entry is overwritten. -/
theorem C4_no_key_collisions (cfs : List ConfiguredField)
    (hnd : (cfs.map (fun cf => cf.request_arg_name)).Nodup)
    (hgood : ∀ cf ∈ cfs, nameHasDunder cf.request_arg_name = false ∧
      '!' ∉ cf.request_arg_name.data) :
    (allQueryKeys cfs).Nodup := by
  induction cfs with
  | nil => simp [allQueryKeys]
  | cons cf rest ih =>
    obtain ⟨hcfd, hcfb⟩ := hgood cf (List.mem_cons_self _ _)
    rw [List.map_cons, List.nodup_cons] at hnd
    obtain ⟨hnotin, hndrest⟩ := hnd
    have hsplit : allQueryKeys (cf :: rest) =
        (SUPPORTED_LOOKUP_EXPR cf.kind).map (supported_query_key cf.request_arg_name) ++
          allQueryKeys rest := by
      simp [allQueryKeys]
    rw [hsplit, List.nodup_append]
    refine ⟨?_, ih hndrest (fun w hw => hgood w (List.mem_cons_of_mem _ hw)), ?_⟩
    · apply List.Nodup.map_on
      · intro x hx y hy hf
        exact (supported_query_key_inj cf.request_arg_name cf.request_arg_name x y
          hcfd hcfd hcfb hcfb (supported_goodSuffix cf.kind x hx)
          (supported_goodSuffix cf.kind y hy) hf).2
      · exact supported_nodup cf.kind
    · intro k hk1 hk2
      obtain ⟨e, he, hke⟩ := List.mem_map.mp hk1
      obtain ⟨cf2, hcf2, e2, he2, hke2⟩ := (mem_allQueryKeys rest k).mp hk2
      obtain ⟨hcf2d, hcf2b⟩ := hgood cf2 (List.mem_cons_of_mem _ hcf2)
      have hinj := supported_query_key_inj cf.request_arg_name cf2.request_arg_name e e2
        hcfd hcf2d hcfb hcf2b (supported_goodSuffix cf.kind e he)
        (supported_goodSuffix cf2.kind e2 he2) (hke.symm ▸ hke2)
      exact hnotin (hinj.1 ▸ List.mem_map.mpr ⟨cf2, hcf2, rfl⟩)

/-- Witness for the amended C4 at a concrete two-field model. -/
theorem C4_no_key_collisions_witness :
    (allQueryKeys [configure_field "name" ⟨none, none, FieldKind.strF⟩,
      configure_field "price" ⟨none, none, FieldKind.decimalF⟩]).Nodup :=
  C4_no_key_collisions _ (by decide) (by decide)

/-- Claim C4 as frozen is false on the code: the metaclass accepts a field
whose `request_arg_name` is "x!" next to a field named "x", the synthesized
keys collide on "x!", and the dict update silently overwrites field "x"'s
NotEq entry with the other field's Eq entry. -/
theorem C4_counterexample :
    (ModelMeta_new "M" [("x", ⟨none, none, FieldKind.intF⟩),
        ("y", ⟨some "x!", none, FieldKind.intF⟩)]).isOk = true ∧
    ¬ (allQueryKeys [c4fieldX, c4fieldY]).Nodup ∧
    dictGet (buildQueryKeyDict [c4fieldX, c4fieldY]) "x!" = some (c4fieldY, "") := by
  decide


/-- Totality of the comparison underlying the stable sort. -/
theorem pyLeB_total (a b : PyVal) : pyLeB a b = true ∨ pyLeB b a = true := by
  cases a <;> cases b <;>
    simp only [pyLeB, ratOfNum, pyClass, decide_eq_true_eq] <;>
    exact le_total _ _

/-- Transitivity of the comparison underlying the stable sort. -/
theorem pyLeB_trans (a b c : PyVal) (hab : pyLeB a b = true) (hbc : pyLeB b c = true) :
    pyLeB a c = true := by
  cases a <;> cases b <;> cases c <;>
    simp only [pyLeB, ratOfNum, pyClass, decide_eq_true_eq] at hab hbc ⊢ <;>
    first
      | rfl
      | exact le_trans hab hbc
      | omega


/-- When every record resolves the key, `resolveKeys` returns the mapped key
values. -/
theorem resolveKeys_ok (K : String) (data : List PyVal)
    (h : ∀ r ∈ data, (get_nested_value r K).isOk = true) :
    IterableBackend.resolveKeys K data =
      Except.ok (data.map (IterableBackend.keyOf K)) := by
  induction data with
  | nil => rfl
  | cons r rest ih =>
    have hr := h r (List.mem_cons_self _ _)
    unfold IterableBackend.resolveKeys
    cases hg : get_nested_value r K with
    | error e => rw [hg] at hr; exact absurd hr (by simp [Except.isOk, Except.toBool])
    | ok v =>
      rw [ih (fun w hw => h w (List.mem_cons_of_mem _ hw))]
      simp [IterableBackend.keyOf, hg]

/-- A single-key `IterableBackend.order` call under resolvable, comparable
keys is exactly the stable sort in the requested direction. -/
theorem order_single (data : List PyVal) (K : String) (rev : Bool)
    (hres : ∀ r ∈ data, (get_nested_value r K).isOk = true)
    (hcomp : IterableBackend.pairsComparable (data.map (IterableBackend.keyOf K)) = true) :
    IterableBackend.order data [(K, rev)] =
      (if rev then data.insertionSort (IterableBackend.keyGe K)
       else data.insertionSort (IterableBackend.keyLe K)) := by
  show IterableBackend.orderGo [(K, rev)] data = _
  unfold IterableBackend.orderGo
  unfold IterableBackend.sortPass
  rw [resolveKeys_ok K data hres]
  simp only [hcomp, if_true]
  rfl

/-- Claim C5 (amended): for every in-memory sequence and single key K that
resolves in every record, with all key values mutually order-comparable
and no two records sharing a key value, sorting ascending by K and then
reversing equals sorting descending by K. -/
theorem C5_order_round_trip (data : List PyVal) (K : String)
    (hres : ∀ r ∈ data, (get_nested_value r K).isOk = true)
    (hcomp : IterableBackend.pairsComparable (data.map (IterableBackend.keyOf K)) = true)
    (hdist : data.Pairwise (fun x y =>
      ¬ (IterableBackend.keyLe K x y ∧ IterableBackend.keyLe K y x))) :
    (IterableBackend.order data [(K, false)]).reverse =
      IterableBackend.order data [(K, true)] := by
  haveI : IsTotal PyVal (IterableBackend.keyLe K) := ⟨fun a b => pyLeB_total _ _⟩
  haveI : IsTrans PyVal (IterableBackend.keyLe K) := ⟨fun a b c => pyLeB_trans _ _ _⟩
  haveI : IsTotal PyVal (IterableBackend.keyGe K) :=
    ⟨fun a b => pyLeB_total (IterableBackend.keyOf K b) (IterableBackend.keyOf K a)⟩
  haveI : IsTrans PyVal (IterableBackend.keyGe K) :=
    ⟨fun a b c hab hbc => pyLeB_trans _ _ _ hbc hab⟩
  haveI : IsAntisymm PyVal (IterableBackend.keyGeStrict K) :=
    ⟨fun a b h1 h2 => absurd h2.1 h1.2⟩
  rw [order_single data K false hres hcomp, order_single data K true hres hcomp]
  show (data.insertionSort (IterableBackend.keyLe K)).reverse =
    data.insertionSort (IterableBackend.keyGe K)
  have hpermL := List.perm_insertionSort (IterableBackend.keyLe K) data
  have hpermR := List.perm_insertionSort (IterableBackend.keyGe K) data
  have hsortL := List.sorted_insertionSort (IterableBackend.keyLe K) data
  have hsortR := List.sorted_insertionSort (IterableBackend.keyGe K) data
  have hno : Symmetric (fun x y : PyVal =>
      ¬ (IterableBackend.keyLe K x y ∧ IterableBackend.keyLe K y x)) :=
    fun x y h hc => h ⟨hc.2, hc.1⟩
  have hrevSorted : (data.insertionSort (IterableBackend.keyLe K)).reverse.Pairwise
      (IterableBackend.keyGe K) :=
    List.pairwise_reverse.mpr (hsortL.imp (fun {a b} h => h))
  have hdistL : (data.insertionSort (IterableBackend.keyLe K)).reverse.Pairwise
      (fun x y => ¬ (IterableBackend.keyLe K x y ∧ IterableBackend.keyLe K y x)) :=
    List.pairwise_reverse.mpr
      (((hpermL.pairwise_iff (fun {x y} h => hno h)).mpr hdist).imp (fun {a b} h => hno h))
  have hdistR : (data.insertionSort (IterableBackend.keyGe K)).Pairwise
      (fun x y => ¬ (IterableBackend.keyLe K x y ∧ IterableBackend.keyLe K y x)) :=
    (hpermR.pairwise_iff (fun {x y} h => hno h)).mpr hdist
  have hstrictRev : (data.insertionSort (IterableBackend.keyLe K)).reverse.Pairwise
      (IterableBackend.keyGeStrict K) :=
    (hrevSorted.and hdistL).imp (fun {a b} hc => ⟨hc.1, fun hge2 => hc.2 ⟨hge2, hc.1⟩⟩)
  have hstrictR : (data.insertionSort (IterableBackend.keyGe K)).Pairwise
      (IterableBackend.keyGeStrict K) :=
    (hsortR.and hdistR).imp (fun {a b} hc => ⟨hc.1, fun hge2 => hc.2 ⟨hge2, hc.1⟩⟩)
  have hperm2 : List.Perm (data.insertionSort (IterableBackend.keyLe K)).reverse
      (data.insertionSort (IterableBackend.keyGe K)) :=
    ((data.insertionSort (IterableBackend.keyLe K)).reverse_perm).trans
      (hpermL.trans hpermR.symm)
  exact List.eq_of_perm_of_sorted hperm2 hstrictRev hstrictR

/-- Witness for the amended C5: two records with distinct keys round-trip. -/
theorem C5_order_round_trip_witness :
    (IterableBackend.order [c5w1, c5w2] [("a", false)]).reverse =
      IterableBackend.order [c5w1, c5w2] [("a", true)] :=
  C5_order_round_trip [c5w1, c5w2] "a" (by decide) (by decide) (by decide)

/-- Claim C5 as frozen is false on the code: with two records tying on the
key (both "a" = 1 but distinguishable via "b"), the stable ascending sort
keeps input order, so its reversal swaps the tied records, while the
stable descending sort also keeps input order — the two sides differ. -/
theorem C5_counterexample :
    ((get_nested_value c5d1 "a").isOk = true ∧ (get_nested_value c5d2 "a").isOk = true) ∧
    (IterableBackend.order [c5d1, c5d2] [("a", false)]).reverse ≠
      IterableBackend.order [c5d1, c5d2] [("a", true)] := by decide


end LumiFilter
